import Mathlib

/-!
Verification of the YEAP-Dashboard survey pipeline.

This file gives a shallow embedding of the data-processing logic of the two
Streamlit pages (`st_general_dashboard.py` and `st_q345_dashboard.py`) and
proves or refutes the documented claims about it.

Modelling conventions:
  * Python dicts become association lists `List (String × β)`; `dictSet`
    updates an existing key in place and otherwise appends, `dictDel`
    removes a key, `dictGet`/`lookupD` retrieve by first match — matching
    Python dict semantics (keys are unique in every dict the code builds).
  * Python `in` on strings (substring test) becomes `strContains`.
  * CSV cell values become the inductive `Cell` (NaN / number / string);
    chart-input values become `PVal` (None / number / string).
  * Exceptions become `Except PyError`; the outer `try/except` blocks of
    the code become explicit `match` on the `Except` result.
  * The modules `st_styles`, `data_handler` and `visualizer` are not part
    of the repository, so both `ImportError` fallback branches of the code
    are the ones modelled (`STYLES_AVAILABLE = False`,
    `ORIGINAL_MODULES_AVAILABLE = False`).
-/

/-- Substring test: Python's `needle in hay` on strings, on the char list. -/
def listIsInfix (n : List Char) : List Char → Bool
  | [] => n.isEmpty
  | c :: t => n.isPrefixOf (c :: t) || listIsInfix n (t)

/-- Python `needle in hay` for strings. -/
def strContains (hay needle : String) : Bool :=
  listIsInfix needle.data hay.data

/-- First value stored under key `k`, if any (Python dict lookup). -/
def lookupD {β : Type} (d : List (String × β)) (k : String) : Option β :=
  (d.find? (fun kv => decide (kv.1 = k))).map (fun kv => kv.2)

/-- Python `d.get(k, default)`. -/
def dictGet {β : Type} (d : List (String × β)) (k : String) (default : β) : β :=
  (lookupD d k).getD default

/-- Python `del d[k]` (removes the key; dicts never hold duplicates). -/
def dictDel {β : Type} (d : List (String × β)) (k : String) : List (String × β) :=
  d.filter (fun kv => !(decide (kv.1 = k)))

/-- Python `d[k] = v`: update the key in place if present, else append. -/
def dictSet {β : Type} (d : List (String × β)) (k : String) (v : β) : List (String × β) :=
  if d.any (fun kv => decide (kv.1 = k)) then
    d.map (fun kv => if kv.1 = k then (k, v) else kv)
  else
    d ++ [(k, v)]

/-! ### Basic dictionary lemmas -/

theorem lookupD_nil {β : Type} (k : String) : lookupD ([] : List (String × β)) k = none := rfl

theorem lookupD_cons {β : Type} (kv : String × β) (d : List (String × β)) (k : String) :
    lookupD (kv :: d) k = if kv.1 = k then some kv.2 else lookupD d k := by
  by_cases h : kv.1 = k <;> simp [lookupD, List.find?, h]

theorem lookupD_append_not_mem {β : Type} (d e : List (String × β)) (k : String)
    (h : lookupD d k = none) : lookupD (d ++ e) k = lookupD e k := by
  induction d with
  | nil => simp
  | cons kv t ih =>
    rw [lookupD_cons] at h
    by_cases hk : kv.1 = k
    · simp [hk] at h
    · rw [List.cons_append, lookupD_cons, if_neg hk]
      exact ih (by simpa [hk] using h)

theorem lookupD_append_of_ne_none {β : Type} (d e : List (String × β)) (j : String)
    (h : lookupD d j ≠ none) : lookupD (d ++ e) j = lookupD d j := by
  induction d with
  | nil => exact absurd rfl h
  | cons hd t ih =>
    rw [List.cons_append, lookupD_cons, lookupD_cons]
    by_cases hj : hd.1 = j
    · rw [if_pos hj, if_pos hj]
    · rw [if_neg hj, if_neg hj]
      rw [lookupD_cons, if_neg hj] at h
      exact ih h

theorem forall_ne_of_not_any {β : Type} {d : List (String × β)} {k : String}
    (h : ¬ d.any (fun kv => decide (kv.1 = k)) = true) : ∀ kv ∈ d, kv.1 ≠ k := by
  intro kv hkv hk
  exact h (List.any_eq_true.mpr ⟨kv, hkv, decide_eq_true hk⟩)

theorem lookupD_eq_none_of_no_key {β : Type} {d : List (String × β)} {k : String}
    (h : ∀ kv ∈ d, kv.1 ≠ k) : lookupD d k = none := by
  induction d with
  | nil => rfl
  | cons hd t ih =>
    rw [lookupD_cons, if_neg (h hd (List.mem_cons_self _ _))]
    exact ih (fun kv hkv => h kv (List.mem_cons_of_mem _ hkv))

theorem map_setKey_id {β : Type} {t : List (String × β)} {k : String} {v : β}
    (h : ∀ kv ∈ t, kv.1 ≠ k) :
    t.map (fun kv => if kv.1 = k then (k, v) else kv) = t := by
  induction t with
  | nil => rfl
  | cons hd tl ih =>
    rw [List.map_cons, if_neg (h hd (List.mem_cons_self _ _)),
      ih (fun kv hkv => h kv (List.mem_cons_of_mem _ hkv))]

theorem lookupD_dictDel_self {β : Type} (d : List (String × β)) (k : String) :
    lookupD (dictDel d k) k = none := by
  apply lookupD_eq_none_of_no_key
  intro kv hkv
  have := List.of_mem_filter hkv
  intro hk
  simp [hk] at this

theorem lookupD_dictDel_ne {β : Type} (d : List (String × β)) (k j : String) (h : j ≠ k) :
    lookupD (dictDel d k) j = lookupD d j := by
  induction d with
  | nil => rfl
  | cons kv t ih =>
    unfold dictDel at ih ⊢
    rw [List.filter_cons]
    by_cases hk : kv.1 = k
    · have hp : (!(decide (kv.1 = k))) = false := by simp [hk]
      rw [hp, if_neg (by simp), lookupD_cons]
      have hj : kv.1 ≠ j := fun hc => h (hc ▸ hk.symm ▸ rfl)
      rw [if_neg (fun hc => h (by rw [← hc, hk]))]
      exact ih
    · have hp : (!(decide (kv.1 = k))) = true := by simp [hk]
      rw [hp, if_pos rfl, lookupD_cons, lookupD_cons]
      by_cases hj : kv.1 = j
      · simp [hj]
      · rw [if_neg hj, if_neg hj]
        exact ih

theorem lookupD_dictSet_self {β : Type} (d : List (String × β)) (k : String) (v : β) :
    lookupD (dictSet d k v) k = some v := by
  unfold dictSet
  by_cases h : d.any (fun kv => decide (kv.1 = k)) = true
  · rw [if_pos h]
    obtain ⟨kv, hmem, hkv⟩ := List.any_eq_true.mp h
    clear h
    induction d with
    | nil => cases hmem
    | cons hd t ih =>
      by_cases hh : hd.1 = k
      · simp [lookupD_cons, hh]
      · rcases List.mem_cons.mp hmem with h1 | h1
        · exact absurd (of_decide_eq_true (h1 ▸ hkv)) hh
        · have hfst : (if hd.1 = k then (k, v) else hd).1 = hd.1 := by simp [hh]
          rw [List.map_cons, lookupD_cons, hfst, if_neg hh]
          exact ih h1
  · rw [if_neg h]
    have hnone : lookupD d k = none := lookupD_eq_none_of_no_key (forall_ne_of_not_any h)
    rw [lookupD_append_not_mem _ _ _ hnone, lookupD_cons]
    simp

theorem lookupD_dictSet_ne {β : Type} (d : List (String × β)) (k j : String) (v : β)
    (h : j ≠ k) : lookupD (dictSet d k v) j = lookupD d j := by
  unfold dictSet
  by_cases hany : d.any (fun kv => decide (kv.1 = k)) = true
  · rw [if_pos hany]
    clear hany
    induction d with
    | nil => rfl
    | cons hd t ih =>
      rw [List.map_cons, lookupD_cons, lookupD_cons]
      by_cases hh : hd.1 = k
      · have hkj : k ≠ j := fun hc => h hc.symm
        have hj : hd.1 ≠ j := fun hc => hkj (hh ▸ hc)
        rw [if_pos hh]
        show (if k = j then some v else _) = _
        rw [if_neg hkj, if_neg hj]
        exact ih
      · rw [if_neg hh]
        show (if hd.1 = j then some hd.2 else _) = _
        by_cases hj : hd.1 = j
        · rw [if_pos hj, if_pos hj]
        · rw [if_neg hj, if_neg hj]
          exact ih
  · rw [if_neg hany]
    by_cases hcase : lookupD d j = none
    · rw [lookupD_append_not_mem _ _ _ hcase, hcase, lookupD_cons]
      rw [if_neg (fun hc : k = j => h hc.symm)]
      rfl
    · exact lookupD_append_of_ne_none _ _ _ hcase

/-! ## Chart selection (claim C2)

`Visualizer.auto_select_chart_type` from `st_general_dashboard.py`
(the `ImportError` fallback class, lines 122-136), and the per-group
selection of `st_q345_dashboard.py` (lines 300-313). -/

/-- `max(len(str(label)) for label in data.keys())` (0 on the empty dict,
where the Python code never evaluates it). -/
def maxLabelLength (d : List (String × Int)) : Nat :=
  d.foldl (fun m kv => max m kv.1.length) 0

/-- `Visualizer.auto_select_chart_type` (general page). -/
def auto_select_chart_type (d : List (String × Int)) : String :=
  if d.isEmpty then "table"
  else if d.length ≤ 5 then "pie"
  else if 20 < maxLabelLength d ∨ 10 < d.length then "horizontal_bar"
  else "bar"

/-- `'bar' if len(results) >= 5 else 'pie'` (specialized page, per group). -/
def specializedChartType {β : Type} (results : List (String × β)) : String :=
  if 5 ≤ results.length then "bar" else "pie"

/-- C2: the two pages' chart-type decisions, and their disagreement at
exactly five options: the general page picks `pie` for at most five
options, `horizontal_bar` past five when labels exceed 20 characters or
more than ten options, `bar` otherwise; the specialized page picks `bar`
from five options upward and `pie` below, independent of labels. -/
theorem chart_selector_spec (d : List (String × Int)) (h : d ≠ []) :
    (d.length ≤ 5 → auto_select_chart_type d = "pie") ∧
    (5 < d.length → (20 < maxLabelLength d ∨ 10 < d.length) →
      auto_select_chart_type d = "horizontal_bar") ∧
    (5 < d.length → maxLabelLength d ≤ 20 → d.length ≤ 10 →
      auto_select_chart_type d = "bar") ∧
    (5 ≤ d.length → specializedChartType d = "bar") ∧
    (d.length < 5 → specializedChartType d = "pie") ∧
    (∀ e : List (String × Nat), e.length = d.length →
      specializedChartType e = specializedChartType d) ∧
    (d.length = 5 →
      auto_select_chart_type d = "pie" ∧ specializedChartType d = "bar") := by
  have hne : d.isEmpty = false := by
    cases d with
    | nil => exact absurd rfl h
    | cons a t => rfl
  unfold auto_select_chart_type specializedChartType
  rw [hne]
  refine ⟨?_, ?_, ?_, ?_, ?_, ?_, ?_⟩
  · intro h1
    simp [h1]
  · intro h1 h2
    have hn : ¬ d.length ≤ 5 := by omega
    rw [if_neg hn, if_pos h2]
    simp
  · intro h1 h2 h3
    have hn : ¬ d.length ≤ 5 := by omega
    have hn2 : ¬ (20 < maxLabelLength d ∨ 10 < d.length) := by
      push_neg
      exact ⟨h2, h3⟩
    rw [if_neg hn, if_neg hn2]
    simp
  · intro h1
    simp [h1]
  · intro h1
    have hn : ¬ 5 ≤ d.length := by omega
    rw [if_neg hn]
  · intro e he
    rw [he]
  · intro h1
    refine ⟨by simp [h1], by simp [h1]⟩

/-- Witness for C2 at a concrete five-option mapping. -/
theorem chart_selector_spec_witness :
    auto_select_chart_type [("a", 1), ("b", 2), ("c", 3), ("d", 4), ("e", 5)] = "pie" ∧
    specializedChartType [("a", 1), ("b", 2), ("c", 3), ("d", 4), ("e", 5)] = "bar" :=
  (chart_selector_spec [("a", 1), ("b", 2), ("c", 3), ("d", 4), ("e", 5)]
    (by decide)).2.2.2.2.2.2 rfl

/-! ## The Other-merge normalization (claim C1)

`GeneralDataProcessor._merge_other_options` from `st_general_dashboard.py`
lines 262-274, expressed per question (the method loops it over every
question of the table; `mergeAll` below is that loop). -/

/-- The body of `_merge_other_options` for one `(question_key, options_data)`
pair. -/
def mergeOther (q : String) (d : List (String × Int)) : List (String × Int) :=
  if strContains q "Q4:" || strContains q "Q5:" then
    let o := dictGet d "Other" 0
    let e := dictGet d "Other (elaborated answ)" 0
    if 0 < o ∨ 0 < e then
      dictSet (dictDel (dictDel d "Other") "Other (elaborated answ)") "Other" (o + e)
    else d
  else d

/-- `_merge_other_options` over the whole table. -/
def mergeAll (t : List (String × List (String × Int))) :
    List (String × List (String × Int)) :=
  t.map (fun qd => (qd.1, mergeOther qd.1 qd.2))

theorem mem_dictDel {β : Type} {d : List (String × β)} {k : String} {kv : String × β}
    (h : kv ∈ dictDel d k) : kv ∈ d ∧ kv.1 ≠ k := by
  refine ⟨List.mem_of_mem_filter h, ?_⟩
  have h2 := List.of_mem_filter h
  intro hk
  simp [hk] at h2

theorem any_eq_false_of_no_key {β : Type} {d : List (String × β)} {k : String}
    (h : ∀ kv ∈ d, kv.1 ≠ k) : d.any (fun kv => decide (kv.1 = k)) = false := by
  rw [List.any_eq_false]
  intro kv hkv
  simp [h kv hkv]

/-- C1: for a Q4/Q5 question where at least one of the two catch-all
variants has a positive count, the merge leaves exactly one `Other` key
carrying the sum of the two original counts, removes the
`Other (elaborated answ)` key, and leaves every other entry unchanged;
when both variants are absent or zero the mapping is unchanged. -/
theorem merge_other_spec (q : String) (d : List (String × Int))
    (hq : strContains q "Q4:" = true ∨ strContains q "Q5:" = true) :
    ((0 < dictGet d "Other" 0 ∨ 0 < dictGet d "Other (elaborated answ)" 0) →
      lookupD (mergeOther q d) "Other" =
        some (dictGet d "Other" 0 + dictGet d "Other (elaborated answ)" 0) ∧
      ((mergeOther q d).map Prod.fst).count "Other" = 1 ∧
      lookupD (mergeOther q d) "Other (elaborated answ)" = none ∧
      (∀ k : String, k ≠ "Other" → k ≠ "Other (elaborated answ)" →
        lookupD (mergeOther q d) k = lookupD d k)) ∧
    ((dictGet d "Other" 0 = 0 ∧ dictGet d "Other (elaborated answ)" 0 = 0) →
      mergeOther q d = d) := by
  have hcond : (strContains q "Q4:" || strContains q "Q5:") = true := by
    rcases hq with h | h <;> simp [h]
  unfold mergeOther
  rw [hcond]
  simp only [if_true]
  set o := dictGet d "Other" 0 with ho
  set e := dictGet d "Other (elaborated answ)" 0 with he
  constructor
  · intro hpos
    rw [if_pos hpos]
    set d2 := dictDel (dictDel d "Other") "Other (elaborated answ)" with hd2
    have hnokey : ∀ kv ∈ d2, kv.1 ≠ "Other" := by
      intro kv hkv
      exact (mem_dictDel (mem_dictDel hkv).1).2
    refine ⟨lookupD_dictSet_self _ _ _, ?_, ?_, ?_⟩
    · -- exactly one "Other" key: `d2` has none, `dictSet` appends one
      have hany : d2.any (fun kv => decide (kv.1 = "Other")) = false :=
        any_eq_false_of_no_key hnokey
      unfold dictSet
      rw [hany]
      simp only [Bool.false_eq_true, if_false, List.map_append, List.count_append]
      have : (d2.map Prod.fst).count "Other" = 0 := by
        rw [List.count_eq_zero]
        intro hmem
        obtain ⟨kv, hkv, hfst⟩ := List.mem_map.mp hmem
        exact hnokey kv hkv hfst
      rw [this]
      rfl
    · rw [lookupD_dictSet_ne _ _ _ _ (by decide)]
      exact lookupD_dictDel_self _ _
    · intro k hk1 hk2
      rw [lookupD_dictSet_ne _ _ _ _ hk1, lookupD_dictDel_ne _ _ _ hk2,
        lookupD_dictDel_ne _ _ _ hk1]
  · intro ⟨h1, h2⟩
    rw [if_neg (by omega)]

/-- Witness for C1 at a concrete Q4 mapping holding both variants. -/
theorem merge_other_spec_witness :
    lookupD (mergeOther "Q4: Pillars" [("A", 3), ("Other", 2), ("Other (elaborated answ)", 4)])
      "Other" = some 6 ∧
    lookupD (mergeOther "Q4: Pillars" [("A", 3), ("Other", 2), ("Other (elaborated answ)", 4)])
      "Other (elaborated answ)" = none := by
  have h := (merge_other_spec "Q4: Pillars"
    [("A", 3), ("Other", 2), ("Other (elaborated answ)", 4)]
    (Or.inl (by decide))).1 (Or.inl (by decide))
  refine ⟨?_, h.2.2.1⟩
  have hsum : dictGet [("A", 3), ("Other", 2), ("Other (elaborated answ)", 4)] "Other" 0 +
      dictGet [("A", 3), ("Other", 2), ("Other (elaborated answ)", 4)]
        "Other (elaborated answ)" 0 = (6 : Int) := by decide
  rw [← hsum]
  exact h.1

/-! ## Title formatting (claim C9)

`process_title_for_display` from `st_general_dashboard.py` lines 306-364.
`titleQPart`/`titleContent` model `title.split(':', 1)` followed by
`parts[0] + ':'` and `parts[1].strip()`; `greedyAux` is the
word-accumulating loop of the general wrapping branch. -/

/-- Python `s.split(sep)` for a one-character separator, on the char
list (keeps empty pieces, yields `[""]` on the empty string). -/
def pySplitChar (sep : Char) : List Char → List (List Char)
  | [] => [[]]
  | c :: t =>
    let r := pySplitChar sep t
    if c = sep then [] :: r
    else
      match r with
      | [] => [[c]]
      | h :: rest => (c :: h) :: rest

/-- Python `s.split(sep)` for a one-character separator. -/
def strSplit (s : String) (sep : Char) : List String :=
  (pySplitChar sep s.data).map String.mk

/-- Python `s.strip()`: drop whitespace from both ends. -/
def strStrip (s : String) : String :=
  String.mk (((s.data.dropWhile Char.isWhitespace).reverse.dropWhile
    Char.isWhitespace).reverse)

/-- `parts[0] + ':'` for `parts = title.split(':', 1)`. -/
def titleQPart (title : String) : String :=
  String.mk ((pySplitChar ':' title.data).headD [] ++ [':'])

/-- `parts[1].strip()` for `parts = title.split(':', 1)`. -/
def titleContent (title : String) : String :=
  strStrip (String.mk (List.intercalate [':'] (pySplitChar ':' title.data).tail))

/-- The greedy line-packing loop (`for word in words: ...`), carrying the
accumulated `lines` and the `current_line`. -/
def greedyAux : List String → List String → String → List String
  | [], lines, cur => if cur = "" then lines else lines ++ [cur]
  | w :: ws, lines, cur =>
    if cur.length + w.length + 1 ≤ 50 then
      greedyAux ws lines (cur ++ (if cur = "" then "" else " ") ++ w)
    else
      greedyAux ws (if cur = "" then lines else lines ++ [cur]) w

def greedyLines (ws : List String) : List String := greedyAux ws [] ""

/-- The non-Q2/Q3 branch: return short titles unchanged, else wrap
greedily at 50 characters per line. -/
def generalWrap (title : String) : String :=
  if title.length ≤ 50 then title
  else String.intercalate "<br>" (greedyLines (strSplit title ' '))

/-- `process_title_for_display`. -/
def process_title_for_display (title : String) : String :=
  if title = "" then title
  else if strContains title "Q2:" || strContains title "Q3:" then
    if strContains title ":" then
      if (titleQPart title).length + (titleContent title).length + 1 ≤ 80 then title
      else
        let words := strSplit (titleContent title) ' '
        if 1 < words.length then
          titleQPart title ++ " " ++
            String.intercalate " " (words.take (words.length / 2)) ++ "<br>" ++
            String.intercalate " " (words.drop (words.length / 2))
        else titleQPart title ++ "<br>" ++ titleContent title
    else generalWrap title
  else generalWrap title

theorem listIsInfix_iff (n h : List Char) : listIsInfix n h = true ↔ n <:+: h := by
  induction h with
  | nil =>
    simp only [listIsInfix, List.isEmpty_iff]
    constructor
    · intro hn
      exact hn ▸ List.infix_rfl
    · intro hn
      exact List.eq_nil_of_infix_nil hn
  | cons c t ih =>
    simp only [listIsInfix, Bool.or_eq_true, List.isPrefixOf_iff_prefix, ih,
      List.infix_cons_iff]

theorem strContains_colon_of_marker {title : String}
    (h : strContains title "Q2:" = true ∨ strContains title "Q3:" = true) :
    strContains title ":" = true := by
  rcases h with h | h <;>
    · rw [strContains, listIsInfix_iff] at h ⊢
      exact List.IsInfix.trans (by decide) h

theorem greedyAux_line_bound (allW : List String) :
    ∀ (ws : List String) (lines : List String) (cur : String),
      (∀ l ∈ lines, l.length ≤ 50 ∨ l ∈ allW) →
      (cur.length ≤ 50 ∨ cur ∈ allW) →
      (∀ w ∈ ws, w ∈ allW) →
      ∀ l ∈ greedyAux ws lines cur, l.length ≤ 50 ∨ l ∈ allW := by
  intro ws
  induction ws with
  | nil =>
    intro lines cur hl hc _ l hmem
    unfold greedyAux at hmem
    by_cases h : cur = ""
    · rw [if_pos h] at hmem
      exact hl l hmem
    · rw [if_neg h] at hmem
      rcases List.mem_append.mp hmem with hm | hm
      · exact hl l hm
      · rw [List.mem_singleton.mp hm]
        exact hc
  | cons w ws ih =>
    intro lines cur hl hc hws l hmem
    unfold greedyAux at hmem
    by_cases hfit : cur.length + w.length + 1 ≤ 50
    · rw [if_pos hfit] at hmem
      refine ih lines _ hl (Or.inl ?_) (fun x hx => hws x (List.mem_cons_of_mem _ hx))
        l hmem
      rw [String.length_append, String.length_append]
      by_cases hces : cur = ""
      · simp [hces] at hfit ⊢
        omega
      · rw [if_neg hces]
        have : (" " : String).length = 1 := rfl
        omega
    · rw [if_neg hfit] at hmem
      refine ih _ w ?_ (Or.inr (hws w (List.mem_cons_self _ _)))
        (fun x hx => hws x (List.mem_cons_of_mem _ hx)) l hmem
      intro x hx
      by_cases hces : cur = ""
      · rw [if_pos hces] at hx
        exact hl x hx
      · rw [if_neg hces] at hx
        rcases List.mem_append.mp hx with hm | hm
        · exact hl x hm
        · rw [List.mem_singleton.mp hm]
          exact hc

/-- C9 (amended): titles carrying a `Q2:`/`Q3:` marker are split at the
first colon and kept on one line when the combined length is at most 80,
otherwise one line break is inserted at the word midpoint of the content
(before the single content word when there is only one); other titles of
length at most 50 are returned unchanged and longer ones are wrapped
greedily into whole-word lines, each of which is at most 50 characters
long or is a single unbreakable input word (a lone word longer than the
limit stays on its own over-long line — this last exception corrects the
original claim). -/
theorem title_processing_amended (title : String) :
    (¬ (strContains title "Q2:" = true ∨ strContains title "Q3:" = true) →
      (title.length ≤ 50 → process_title_for_display title = title) ∧
      (50 < title.length →
        process_title_for_display title =
          String.intercalate "<br>" (greedyLines (strSplit title ' ')) ∧
        ∀ l ∈ greedyLines (strSplit title ' '),
          l.length ≤ 50 ∨ l ∈ strSplit title ' ')) ∧
    ((strContains title "Q2:" = true ∨ strContains title "Q3:" = true) →
      ((titleQPart title).length + (titleContent title).length + 1 ≤ 80 →
        process_title_for_display title = title) ∧
      (80 < (titleQPart title).length + (titleContent title).length + 1 →
        (2 ≤ (strSplit (titleContent title) ' ').length →
          process_title_for_display title =
            titleQPart title ++ " " ++
            String.intercalate " " ((strSplit (titleContent title) ' ').take
              ((strSplit (titleContent title) ' ').length / 2)) ++ "<br>" ++
            String.intercalate " " ((strSplit (titleContent title) ' ').drop
              ((strSplit (titleContent title) ' ').length / 2))) ∧
        ((strSplit (titleContent title) ' ').length ≤ 1 →
          process_title_for_display title =
            titleQPart title ++ "<br>" ++ titleContent title))) := by
  constructor
  · intro hno
    have hbm : ¬ (strContains title "Q2:" || strContains title "Q3:") = true := by
      rw [Bool.or_eq_true]
      exact hno
    by_cases hemp : title = ""
    · subst hemp
      exact ⟨fun _ => rfl, fun hlt => absurd hlt (by decide)⟩
    · unfold process_title_for_display
      rw [if_neg hemp, if_neg hbm]
      unfold generalWrap
      constructor
      · intro hle
        rw [if_pos hle]
      · intro hlt
        rw [if_neg (by omega)]
        refine ⟨rfl, ?_⟩
        exact greedyAux_line_bound (strSplit title ' ') (strSplit title ' ') [] ""
          (fun l hl => absurd hl (List.not_mem_nil l))
          (Or.inl (by decide))
          (fun w hw => hw)
  · intro hyes
    have hbm : (strContains title "Q2:" || strContains title "Q3:") = true := by
      rw [Bool.or_eq_true]
      exact hyes
    have hemp : title ≠ "" := by
      intro heq
      subst heq
      rcases hyes with h | h <;> exact absurd h (by decide)
    have hcolon := strContains_colon_of_marker hyes
    unfold process_title_for_display
    rw [if_neg hemp, if_pos hbm, if_pos hcolon]
    constructor
    · intro hle
      rw [if_pos hle]
    · intro hgt
      rw [if_neg (by omega)]
      constructor
      · intro h2
        rw [if_pos (by omega)]
      · intro h1
        rw [if_neg (by omega)]

/-- A single 51-character word. -/
def longWord : String := String.mk (List.replicate 51 'a')

/-- C9 counterexample: a title that is one 51-character word carries no
`Q2:`/`Q3:` marker and is longer than 50 characters, yet
`process_title_for_display` returns it unchanged as a single line of 51
characters — refuting "longer ones are wrapped greedily into whole-word
lines of at most 50 characters". -/
theorem title_wrap_counterexample :
    50 < longWord.length ∧
    strContains longWord "Q2:" = false ∧
    strContains longWord "Q3:" = false ∧
    process_title_for_display longWord = longWord ∧
    strContains (process_title_for_display longWord) "<br>" = false := by
  refine ⟨by decide, by decide, by decide, by decide, by decide⟩

/-! ## Renderer (claims C6, C7, C8)

`create_chart_unified` (`st_general_dashboard.py` lines 366-467), the data
table of `create_layout` (lines 796-826), and
`create_standardized_chart` (`st_q345_dashboard.py` lines 169-240; the
specialized page renders no data table at all).

Chart values on the general page may be `None`, numeric, or other Python
objects: `PVal` models these three shapes.  Figures are modelled
abstractly by `Fig` (labels, values and title of each trace, or the
placeholder annotations).  The float expression
`count / total * 100` rounded to one decimal by pandas (IEEE-754
round-half-to-even) is modelled exactly in integer arithmetic by
`roundHalfEvenDiv (count * 1000) total`, rendered as tenths. -/

/-- A Python value arriving in an options dict. -/
inductive PVal
  | vnone
  | vint (n : Int)
  | vstr (s : String)
deriving DecidableEq, Repr

/-- Abstract description of a produced Plotly figure. -/
inductive Fig
  | noData (text title : String)
  | pie (labels : List String) (values : List Int) (title : String)
  | bar (labels : List String) (values : List Int) (title : String)
  | hbar (labels : List String) (values : List Int) (title : String)
  | errorFig (msg title : String)
deriving DecidableEq, Repr

/-- `str(key) if key else "Unknown"` (the empty string is falsy). -/
def cleanKey (k : String) : String := if k = "" then "Unknown" else k

/-- One step of the cleaning loop of `create_chart_unified`: skip `None`
values, keep non-negative numbers, coerce non-numeric values to 0. -/
def cleanVal (kv : String × PVal) : Option (String × Int) :=
  match kv.2 with
  | .vnone => none
  | .vint n => if 0 ≤ n then some (cleanKey kv.1, n) else none
  | .vstr _ => some (cleanKey kv.1, 0)

/-- The cleaning loop of `create_chart_unified`. -/
def cleanData (d : List (String × PVal)) : List (String × Int) :=
  d.filterMap cleanVal

/-- `create_chart_unified` (fallback branch; the two `raise ValueError`
sites are caught by its own `except` and become the error figure). -/
def create_chart_unified (d : List (String × PVal)) (chartType title : String) : Fig :=
  if d.isEmpty then
    .errorFig "Invalid data: expected non-empty dictionary"
      (if title = "" then "Chart Error" else title)
  else if (cleanData d).isEmpty then
    .errorFig "No valid data points found"
      (if title = "" then "Chart Error" else title)
  else if chartType = "pie" then
    .pie ((cleanData d).map (fun kv => kv.1)) ((cleanData d).map (fun kv => kv.2))
      (process_title_for_display title)
  else if chartType = "horizontal_bar" then
    .hbar ((cleanData d).map (fun kv => kv.1)) ((cleanData d).map (fun kv => kv.2))
      (process_title_for_display title)
  else
    .bar ((cleanData d).map (fun kv => kv.1)) ((cleanData d).map (fun kv => kv.2))
      (process_title_for_display title)

/-- `title_mapping.get(group, f"{group} Response Distribution")`. -/
def titleMappingQ (group : String) : String :=
  if group = "Q3" then
    "Distribution Of Outputs Across The Clusters Of The Implementation Framework"
  else if group = "Q4" then
    "Distribution Of Outputs Across The Pillars Of The Call For Action On Youth Employment"
  else if group = "Q5" then
    "Distribution Of Outputs Across Target Youth Groups, When Applicable"
  else group ++ " Response Distribution"

/-- `create_standardized_chart` of the specialized page. -/
def create_standardized_chart (d : List (String × Int)) (group chartType : String) : Fig :=
  if d.isEmpty || d.all (fun kv => decide (kv.2 = 0)) then
    .noData ("No data available for " ++ group) (group ++ " Response Distribution")
  else if chartType = "pie" then
    .pie (d.map (fun kv => kv.1)) (d.map (fun kv => kv.2)) (titleMappingQ group)
  else
    .bar (d.map (fun kv => kv.1)) (d.map (fun kv => kv.2)) (titleMappingQ group)

/-- Descending order on the `Count` column. -/
def countGE (a b : String × Int) : Prop := b.2 ≤ a.2

instance : DecidableRel countGE := fun a b => inferInstanceAs (Decidable (b.2 ≤ a.2))

instance : IsTotal (String × Int) countGE := ⟨fun a b => le_total b.2 a.2⟩

instance : IsTrans (String × Int) countGE := ⟨fun _ _ _ h1 h2 => le_trans h2 h1⟩

/-- One step of the `valid_items` loop of the table branch of
`create_layout`: skip `None` values, keep the numeric value (sign
unchecked), coerce non-numeric values to 0. -/
def validVal (kv : String × PVal) : Option (String × Int) :=
  match kv.2 with
  | .vnone => none
  | .vint n => some (cleanKey kv.1, n)
  | .vstr _ => some (cleanKey kv.1, 0)

/-- The `valid_items` loop of the table branch of `create_layout`. -/
def validItems (d : List (String × PVal)) : List (String × Int) :=
  d.filterMap validVal

/-- Nearest integer to `a / b` for `0 < b`, ties to even — the IEEE-754
default rounding used by pandas `round`. -/
def roundHalfEvenDiv (a b : Int) : Int :=
  let q := a.fdiv b
  let r := a - q * b
  if 2 * r < b then q else if b < 2 * r then q + 1 else if q % 2 = 0 then q else q + 1

/-- Render a count of tenths the way `str()` renders the rounded float
(`600 ↦ "60.0"`, `-1500 ↦ "-150.0"`). -/
def fmtTenths (t : Int) : String :=
  if t < 0 then "-" ++ toString (t.natAbs / 10) ++ "." ++ toString (t.natAbs % 10)
  else toString (t.natAbs / 10) ++ "." ++ toString (t.natAbs % 10)

/-- The `Percentage` cell: `count / total * 100` rounded to one decimal
with a trailing percent sign when `0 < total`, else the literal `"0%"`. -/
def pctString (c total : Int) : String :=
  if 0 < total then fmtTenths (roundHalfEvenDiv (c * 1000) total) ++ "%" else "0%"

/-- The data-table branch of `create_layout` (general page): `none` when
no table is rendered, otherwise the rows `(Option, Count, Percentage)`
sorted by count descending.  `sort_values('Count', ascending=False)` is
modelled by insertion sort; the claims proved below do not depend on the
order among equal counts. -/
def generalTable (d : List (String × PVal)) : Option (List (String × Int × String)) :=
  if d.isEmpty then none
  else if (validItems d).isEmpty then none
  else some ((List.insertionSort countGE (validItems d)).map fun kc =>
    (kc.1, kc.2, pctString kc.2
      (((List.insertionSort countGE (validItems d)).map (fun kv => kv.2)).sum)))

/-- Values of the (single) trace of a figure. -/
def chartValues : Fig → List Int
  | .pie _ v _ => v
  | .bar _ v _ => v
  | .hbar _ v _ => v
  | _ => []

/-- Inject integer counts into chart-input values. -/
def injD (d : List (String × Int)) : List (String × PVal) :=
  d.map (fun kv => (kv.1, PVal.vint kv.2))

theorem validItems_injD (d : List (String × Int)) :
    validItems (injD d) = d.map (fun kv => (cleanKey kv.1, kv.2)) := by
  induction d with
  | nil => rfl
  | cons kv t ih =>
    simp only [injD, List.map_cons, validItems, List.filterMap_cons] at ih ⊢
    rw [ih]
    rfl

theorem isEmpty_false_of_ne_nil {α : Type} {l : List α} (h : l ≠ []) :
    l.isEmpty = false := by
  cases l with
  | nil => exact absurd rfl h
  | cons a t => rfl

/-- C7: for a non-empty mapping the general page renders a table whose
rows are sorted by count descending, are a permutation of the (cleaned)
input entries, and whose `Percentage` cell is `count / total * 100`
rounded to one decimal with a trailing `%` (literal `"0%"` for every row
when the total is 0), with `total` the sum over the whole mapping. -/
theorem percentage_table_spec (d : List (String × Int)) (h : d ≠ []) :
    ∃ rows, generalTable (injD d) = some rows ∧
      List.Sorted (fun a b => b.2.1 ≤ a.2.1) rows ∧
      (rows.map (fun r => (r.1, r.2.1))).Perm
        (d.map (fun kv => (cleanKey kv.1, kv.2))) ∧
      ∀ r ∈ rows, r.2.2 = pctString r.2.1 ((d.map (fun kv => kv.2)).sum) := by
  have hinj : injD d ≠ [] := by
    intro hc
    exact h (List.map_eq_nil_iff.mp hc)
  have hval := validItems_injD d
  have hvne : validItems (injD d) ≠ [] := by
    rw [hval]
    intro hc
    exact h (List.map_eq_nil_iff.mp hc)
  have hsorted := List.sorted_insertionSort countGE (validItems (injD d))
  have hperm := List.perm_insertionSort countGE (validItems (injD d))
  have htot : ((List.insertionSort countGE (validItems (injD d))).map
      (fun kv => kv.2)).sum = (d.map (fun kv => kv.2)).sum := by
    rw [(hperm.map (fun kv : String × Int => kv.2)).sum_eq, hval, List.map_map]
    rfl
  refine ⟨(List.insertionSort countGE (validItems (injD d))).map
    (fun kc => (kc.1, kc.2, pctString kc.2
      (((List.insertionSort countGE (validItems (injD d))).map
        (fun kv => kv.2)).sum))), ?_, ?_, ?_, ?_⟩
  · unfold generalTable
    rw [isEmpty_false_of_ne_nil hinj, isEmpty_false_of_ne_nil hvne]
    simp only [Bool.false_eq_true, if_false]
  · exact hsorted.map _ (fun a b hab => hab)
  · have hmm : ((List.insertionSort countGE (validItems (injD d))).map
        (fun kc => (kc.1, kc.2, pctString kc.2
          (((List.insertionSort countGE (validItems (injD d))).map
            (fun kv => kv.2)).sum)))).map (fun r => (r.1, r.2.1)) =
        List.insertionSort countGE (validItems (injD d)) := by
      rw [List.map_map]
      have hcomp : ((fun r : String × Int × String => (r.1, r.2.1)) ∘
          (fun kc : String × Int => (kc.1, kc.2, pctString kc.2
            (((List.insertionSort countGE (validItems (injD d))).map
              (fun kv => kv.2)).sum)))) = id := by
        funext kc
        rfl
      rw [hcomp, List.map_id]
    rw [hmm, ← hval]
    exact hperm
  · intro r hr
    obtain ⟨kc, hkc, rfl⟩ := List.mem_map.mp hr
    show pctString kc.2 _ = pctString kc.2 _
    rw [htot]

/-- Witness for C7 at the spec's own example `{Yes: 30, No: 20}`. -/
theorem percentage_table_spec_witness :
    (∃ rows, generalTable (injD [("Yes", 30), ("No", 20)]) = some rows ∧
      List.Sorted (fun a b => b.2.1 ≤ a.2.1) rows ∧
      (rows.map (fun r => (r.1, r.2.1))).Perm
        ([("Yes", 30), ("No", 20)].map (fun kv => (cleanKey kv.1, kv.2))) ∧
      ∀ r ∈ rows, r.2.2 = pctString r.2.1
        ((([("Yes", 30), ("No", 20)] : List (String × Int)).map (fun kv => kv.2)).sum)) ∧
    generalTable (injD [("Yes", 30), ("No", 20)]) =
      some [("Yes", 30, "60.0%"), ("No", 20, "40.0%")] :=
  ⟨percentage_table_spec [("Yes", 30), ("No", 20)] (by decide), by decide⟩

/-- C6 (amended): the specialized page renders the no-data placeholder
for an empty or all-zero mapping (that page renders no table at all); on
the general page only the empty mapping yields a placeholder (error)
chart and no table — a non-empty all-zero mapping instead renders a
normal chart and a table whose `Percentage` cells all read `"0%"`. -/
theorem no_data_rendering_amended (d : List (String × Int))
    (group ctype title : String) :
    ((d = [] ∨ ∀ kv ∈ d, kv.2 = 0) →
      create_standardized_chart d group ctype =
        Fig.noData ("No data available for " ++ group)
          (group ++ " Response Distribution")) ∧
    (create_chart_unified [] ctype title =
      Fig.errorFig "Invalid data: expected non-empty dictionary"
        (if title = "" then "Chart Error" else title)) ∧
    (generalTable [] = none) ∧
    (d ≠ [] → (∀ kv ∈ d, kv.2 = 0) →
      ∃ rows, generalTable (injD d) = some rows ∧ rows ≠ [] ∧
        ∀ r ∈ rows, r.2.2 = "0%") := by
  refine ⟨?_, ?_, ?_, ?_⟩
  · intro hz
    unfold create_standardized_chart
    have hcond : (d.isEmpty || d.all (fun kv => decide (kv.2 = 0))) = true := by
      rcases hz with hz | hz
      · rw [hz]
        rfl
      · rw [List.all_eq_true.mpr (fun kv hkv => decide_eq_true (hz kv hkv))]
        rw [Bool.or_true]
    rw [hcond]
    rfl
  · rfl
  · rfl
  · intro hne hz
    have hinj : injD d ≠ [] := by
      intro hc
      exact hne (List.map_eq_nil_iff.mp hc)
    have hval := validItems_injD d
    have hvne : validItems (injD d) ≠ [] := by
      rw [hval]
      intro hc
      exact hne (List.map_eq_nil_iff.mp hc)
    have hperm := List.perm_insertionSort countGE (validItems (injD d))
    have htot : ((List.insertionSort countGE (validItems (injD d))).map
        (fun kv => kv.2)).sum = 0 := by
      rw [(hperm.map (fun kv : String × Int => kv.2)).sum_eq, hval, List.map_map]
      apply List.sum_eq_zero
      intro x hx
      obtain ⟨kv, hkv, rfl⟩ := List.mem_map.mp hx
      exact hz kv hkv
    refine ⟨(List.insertionSort countGE (validItems (injD d))).map
      (fun kc => (kc.1, kc.2, pctString kc.2
        (((List.insertionSort countGE (validItems (injD d))).map
          (fun kv => kv.2)).sum))), ?_, ?_, ?_⟩
    · unfold generalTable
      rw [isEmpty_false_of_ne_nil hinj, isEmpty_false_of_ne_nil hvne]
      rfl
    · intro hc
      have hlen := congrArg List.length hc
      rw [List.length_map, hperm.length_eq] at hlen
      exact hvne (List.eq_nil_of_length_eq_zero hlen)
    · intro r hr
      obtain ⟨kc, hkc, rfl⟩ := List.mem_map.mp hr
      show pctString kc.2 _ = "0%"
      rw [htot]
      rfl

/-- Witness for C6 (amended) at the all-zero singleton `{A: 0}`. -/
theorem no_data_rendering_amended_witness :
    create_standardized_chart [("A", 0)] "Q3" "pie" =
      Fig.noData "No data available for Q3" "Q3 Response Distribution" ∧
    ∃ rows, generalTable (injD [("A", 0)]) = some rows ∧ rows ≠ [] ∧
      ∀ r ∈ rows, r.2.2 = "0%" :=
  ⟨(no_data_rendering_amended [("A", 0)] "Q3" "pie" "T").1 (Or.inr (by decide)),
   (no_data_rendering_amended [("A", 0)] "Q3" "pie" "T").2.2.2 (by decide) (by decide)⟩

/-- C6 counterexample: the non-empty all-zero mapping `{A: 0}` on the
general page is rendered as a normal pie chart (not a placeholder) and
produces a percentage table — refuting "renders a placeholder no-data
chart and produces no percentage table, on both pages". -/
theorem all_zero_general_page_counterexample :
    create_chart_unified [("A", PVal.vint 0)] "pie" "T" = Fig.pie ["A"] [0] "T" ∧
    generalTable [("A", PVal.vint 0)] = some [("A", 0, "0%")] :=
  ⟨by decide, by decide⟩

theorem cleanData_values_nonneg (d : List (String × PVal)) :
    ∀ v ∈ (cleanData d).map (fun kv => kv.2), 0 ≤ v := by
  intro v hv
  obtain ⟨kv, hkv, rfl⟩ := List.mem_map.mp hv
  obtain ⟨⟨ka, va⟩, _, hfa⟩ := List.mem_filterMap.mp hkv
  cases va with
  | vnone => cases hfa
  | vint n =>
    have hfa2 : (if 0 ≤ n then some (cleanKey ka, n) else none) = some kv := hfa
    by_cases hn : 0 ≤ n
    · rw [if_pos hn] at hfa2
      cases hfa2
      exact hn
    · rw [if_neg hn] at hfa2
      cases hfa2
  | vstr s =>
    cases hfa
    exact le_refl 0

/-- C8 (amended): before the chart is built, `None` values are skipped,
non-numeric values are coerced to 0 and negative values are dropped, so
no negative count reaches the chart; the table path, however, applies no
negativity filter — every numeric entry, negative ones included, appears
as a table row (non-numeric entries appear coerced to 0). -/
theorem renderer_negative_amended (d : List (String × PVal)) (ctype title : String) :
    (∀ v ∈ chartValues (create_chart_unified d ctype title), 0 ≤ v) ∧
    (∀ k s, (k, PVal.vstr s) ∈ d → (cleanKey k, 0) ∈ cleanData d) ∧
    (∀ k n, (k, PVal.vint n) ∈ d →
      ∃ rows pct, generalTable d = some rows ∧ (cleanKey k, n, pct) ∈ rows) := by
  refine ⟨?_, ?_, ?_⟩
  · unfold create_chart_unified
    split_ifs <;> intro v hv <;>
      first
        | exact absurd hv (List.not_mem_nil v)
        | exact cleanData_values_nonneg d v hv
  · intro k s hmem
    exact List.mem_filterMap.mpr ⟨(k, PVal.vstr s), hmem, rfl⟩
  · intro k n hmem
    have hd : d ≠ [] := by
      intro hc
      rw [hc] at hmem
      cases hmem
    have hvmem : (cleanKey k, n) ∈ validItems d :=
      List.mem_filterMap.mpr ⟨(k, PVal.vint n), hmem, rfl⟩
    have hvne : validItems d ≠ [] := by
      intro hc
      rw [hc] at hvmem
      cases hvmem
    refine ⟨(List.insertionSort countGE (validItems d)).map
      (fun kc => (kc.1, kc.2, pctString kc.2
        (((List.insertionSort countGE (validItems d)).map (fun kv => kv.2)).sum))),
      pctString n (((List.insertionSort countGE (validItems d)).map
        (fun kv => kv.2)).sum), ?_, ?_⟩
    · unfold generalTable
      rw [isEmpty_false_of_ne_nil hd, isEmpty_false_of_ne_nil hvne]
      rfl
    · exact List.mem_map.mpr
        ⟨(cleanKey k, n), (List.mem_insertionSort countGE).mpr hvmem, rfl⟩

/-- Witness for C8 (amended): a numeric entry of a concrete mapping
appears as a table row. -/
theorem renderer_negative_amended_witness :
    ∃ rows pct, generalTable [("A", PVal.vint 2), ("B", PVal.vstr "x")] = some rows ∧
      ("A", 2, pct) ∈ rows := by
  have h := (renderer_negative_amended [("A", PVal.vint 2), ("B", PVal.vstr "x")]
    "pie" "T").2.2 "A" 2 (by decide)
  have hck : cleanKey "A" = "A" := by decide
  rw [hck] at h
  exact h

/-- C8 counterexample: the mapping `{A: -3, B: 5}` produces a table that
contains the row `(A, -3, "-150.0%")` — a negative count reaches the
percentage table, refuting "no negative count ever reaches either
output". -/
theorem negative_count_reaches_table :
    generalTable [("A", PVal.vint (-3)), ("B", PVal.vint 5)] =
      some [("B", 5, "250.0%"), ("A", -3, "-150.0%")] := by decide

/-! ## Q4/Q5 "other" filtering in `create_layout` (claim C10)

`st_general_dashboard.py` lines 765-780: for a selected Q4/Q5 question
with a positive total, options whose lowercased label contains `"other"`
are removed before chart and table; the `Q2:` branch and the default
branch both keep the data unchanged. -/

/-- Python `s.lower()` (ASCII case folding suffices for these labels). -/
def strLower (s : String) : String := String.mk (s.data.map Char.toLower)

/-- The filtering step applied to the selected question's data before
`create_chart_unified` and the table are built. -/
def filterQ45 (selectedQuestion : String) (d : List (String × Int)) :
    List (String × Int) :=
  if strContains selectedQuestion "Q4:" || strContains selectedQuestion "Q5:" then
    if 0 < (d.map (fun kv => kv.2)).sum then
      d.filter (fun kv => !(strContains (strLower kv.1) "other"))
    else d
  else d

/-- C10: on the general page a selected Q4/Q5 question with positive
total has every option whose label contains "other" in any letter case
removed before chart and table are built (so the merged `Other` bucket
never appears); with a zero total, or for any other question, nothing is
removed. -/
theorem q45_other_filter_spec (q : String) (d : List (String × Int)) :
    ((strContains q "Q4:" = true ∨ strContains q "Q5:" = true) →
      0 < (d.map (fun kv => kv.2)).sum →
      filterQ45 q d = d.filter (fun kv => !(strContains (strLower kv.1) "other")) ∧
      (∀ kv ∈ filterQ45 q d, strContains (strLower kv.1) "other" = false) ∧
      lookupD (filterQ45 q d) "Other" = none) ∧
    ((strContains q "Q4:" = true ∨ strContains q "Q5:" = true) →
      (d.map (fun kv => kv.2)).sum = 0 → filterQ45 q d = d) ∧
    (¬ (strContains q "Q4:" = true ∨ strContains q "Q5:" = true) →
      filterQ45 q d = d) := by
  refine ⟨?_, ?_, ?_⟩
  · intro hq hpos
    have hcond : (strContains q "Q4:" || strContains q "Q5:") = true := by
      rcases hq with h | h <;> simp [h]
    unfold filterQ45
    rw [hcond]
    simp only [if_true, if_pos hpos]
    refine ⟨trivial, ?_, ?_⟩
    · intro kv hkv
      have h2 := List.of_mem_filter hkv
      rcases hb : strContains (strLower kv.1) "other" with _ | _
      · rfl
      · rw [hb] at h2
        cases h2
    · apply lookupD_eq_none_of_no_key
      intro kv hkv hk
      have h2 := List.of_mem_filter hkv
      rw [hk] at h2
      have : strContains (strLower "Other") "other" = true := by decide
      rw [this] at h2
      cases h2
  · intro hq hz
    have hcond : (strContains q "Q4:" || strContains q "Q5:") = true := by
      rcases hq with h | h <;> simp [h]
    unfold filterQ45
    rw [hcond]
    simp only [if_true]
    rw [if_neg (by omega)]
  · intro hq
    have hcond : (strContains q "Q4:" || strContains q "Q5:") = false := by
      rcases hb1 : strContains q "Q4:" with _ | _ <;>
        rcases hb2 : strContains q "Q5:" with _ | _ <;>
          first
            | rfl
            | exact absurd (Or.inl hb1) hq
            | exact absurd (Or.inr hb2) hq
    unfold filterQ45
    rw [hcond]
    rfl

/-- Witness for C10 at `Q4: Pillars` with `{Other: 2, Keep: 3}`. -/
theorem q45_other_filter_spec_witness :
    filterQ45 "Q4: Pillars" [("Other", 2), ("Keep", 3)] =
      [("Other", 2), ("Keep", 3)].filter
        (fun kv => !(strContains (strLower kv.1) "other")) ∧
    (∀ kv ∈ filterQ45 "Q4: Pillars" [("Other", 2), ("Keep", 3)],
      strContains (strLower kv.1) "other" = false) ∧
    lookupD (filterQ45 "Q4: Pillars" [("Other", 2), ("Keep", 3)]) "Other" = none :=
  (q45_other_filter_spec "Q4: Pillars" [("Other", 2), ("Keep", 3)]).1
    (Or.inl (by decide)) (by decide)

/-! ## Column-flag aggregation (claim C5)

`process_question_data` from `st_q345_dashboard.py` lines 243-253, with
the fixed per-group column lists (lines 256-279).  A table is its column
list plus one association list per row; a missing cell reads as `""`
(pandas `NaN`, which never equals `"YES"`). -/

structure FlagTable where
  cols : List String
  rows : List (List (String × String))

/-- `(data[col] == 'YES').sum()`. -/
def yesCount (t : FlagTable) (c : String) : Int :=
  ((t.rows.filter (fun r => decide (dictGet r c "" = "YES"))).length : Int)

/-- Python `s.rstrip('.')`: drop every trailing period. -/
def rstripDots (s : String) : String :=
  String.mk ((s.data.reverse.dropWhile (fun ch => decide (ch = '.'))).reverse)

/-- `col.strip().rstrip('.')` — the label cleaning the code performs. -/
def cleanColCode (c : String) : String := rstripDots (strStrip c)

/-- The label cleaning in the words of the specification: trim
surrounding whitespace, then remove exactly one trailing period. -/
def cleanColSpec (c : String) : String :=
  if (strStrip c).data.getLast? = some '.' then
    String.mk (strStrip c).data.dropLast
  else strStrip c

/-- One iteration of the `for col in question_columns` loop. -/
def pqStep (t : FlagTable) (res : List (String × Int)) (c : String) :
    List (String × Int) :=
  if c ∈ t.cols then
    if 0 < yesCount t c then dictSet res (cleanColCode c) (yesCount t c) else res
  else res

/-- `process_question_data`. -/
def process_question_data (t : FlagTable) (qcols : List String) :
    List (String × Int) :=
  qcols.foldl (pqStep t) []

def q3_columns : List String :=
  ["Knowledge development and dissemination. ",
   "Technical assistance and capacity-building of constituents. ",
   "Advocacy and partnerships. "]

def q4_columns : List String :=
  ["Employment and economic policies for youth employment. ",
   "Employability – Education, training and skills, and the school-to-work transition. ",
   "Labour market policies. ",
   "Youth entrepreneurship and self-employment. ",
   "Rights for young people. "]

def q5_columns : List String :=
  ["Young women",
   "Young people not in employment, education or training (NEET) ",
   "Young migrant workers ",
   "Young refugees ",
   "Young people - sexual orientation and gender identity ",
   "Young people with disabilities ",
   "Young rural workers  ",
   "Young indigenous people "]

theorem processFold_frame (t : FlagTable) :
    ∀ (qcols : List String) (acc : List (String × Int)) (key : String),
      key ∉ qcols.map cleanColCode →
      lookupD (qcols.foldl (pqStep t) acc) key = lookupD acc key := by
  intro qcols
  induction qcols with
  | nil => intro acc key _; rfl
  | cons c cs ih =>
    intro acc key hkey
    rw [List.map_cons] at hkey
    have hne : key ≠ cleanColCode c := fun hc => hkey (hc ▸ List.mem_cons_self _ _)
    have htail : key ∉ cs.map cleanColCode := fun hc => hkey (List.mem_cons_of_mem _ hc)
    rw [List.foldl_cons, ih (pqStep t acc c) key htail]
    unfold pqStep
    by_cases h1 : c ∈ t.cols
    · rw [if_pos h1]
      by_cases h2 : 0 < yesCount t c
      · rw [if_pos h2, lookupD_dictSet_ne _ _ _ _ hne]
      · rw [if_neg h2]
    · rw [if_neg h1]

theorem processFold_mem (t : FlagTable) :
    ∀ (qcols : List String) (acc : List (String × Int)) (c : String),
      c ∈ qcols → (qcols.map cleanColCode).Nodup →
      lookupD acc (cleanColCode c) = none →
      lookupD (qcols.foldl (pqStep t) acc) (cleanColCode c) =
        if c ∈ t.cols ∧ 0 < yesCount t c then some (yesCount t c) else none := by
  intro qcols
  induction qcols with
  | nil => intro acc c hc; cases hc
  | cons d ds ih =>
    intro acc c hc hnodup hacc
    rw [List.map_cons, List.nodup_cons] at hnodup
    rw [List.foldl_cons]
    rcases List.mem_cons.mp hc with rfl | hmem
    · -- `c` is the head: the rest of the loop never touches its label
      rw [processFold_frame t ds (pqStep t acc c) (cleanColCode c) hnodup.1]
      unfold pqStep
      by_cases h1 : c ∈ t.cols
      · rw [if_pos h1]
        by_cases h2 : 0 < yesCount t c
        · rw [if_pos h2, lookupD_dictSet_self, if_pos ⟨h1, h2⟩]
        · rw [if_neg h2, hacc, if_neg (fun hand => h2 hand.2)]
      · rw [if_neg h1, hacc, if_neg (fun hand => h1 hand.1)]
    · -- `c` is in the tail: the head's step cannot touch its label
      have hnec : cleanColCode c ≠ cleanColCode d := by
        intro hceq
        exact hnodup.1 (hceq ▸ List.mem_map_of_mem cleanColCode hmem)
      refine ih (pqStep t acc d) c hmem hnodup.2 ?_
      unfold pqStep
      by_cases h1 : d ∈ t.cols
      · rw [if_pos h1]
        by_cases h2 : 0 < yesCount t d
        · rw [if_pos h2, lookupD_dictSet_ne _ _ _ _ hnec, hacc]
        · rw [if_neg h2, hacc]
      · rw [if_neg h1, hacc]

/-- C5: for every table and every known column of the three groups, the
aggregator emits an entry exactly when the column is present and some
row holds the literal `"YES"` in it; the entry's key is the column name
trimmed with exactly one trailing period removed, its value the number
of `"YES"` rows; absent columns and zero counts leave no entry. -/
theorem process_question_data_spec (t : FlagTable) (qcols : List String) (c : String)
    (hq : qcols = q3_columns ∨ qcols = q4_columns ∨ qcols = q5_columns)
    (hc : c ∈ qcols) :
    cleanColSpec c = cleanColCode c ∧
    (c ∈ t.cols → 0 < yesCount t c →
      lookupD (process_question_data t qcols) (cleanColSpec c) =
        some (yesCount t c)) ∧
    ((c ∉ t.cols ∨ yesCount t c = 0) →
      lookupD (process_question_data t qcols) (cleanColSpec c) = none) := by
  have hnodup : (qcols.map cleanColCode).Nodup := by
    rcases hq with rfl | rfl | rfl <;> decide
  have hclean : cleanColSpec c = cleanColCode c := by
    rcases hq with rfl | rfl | rfl <;> fin_cases hc <;> decide
  have hmain := processFold_mem t qcols [] c hc hnodup (lookupD_nil _)
  refine ⟨hclean, ?_, ?_⟩
  · intro h1 h2
    rw [hclean]
    unfold process_question_data
    rw [hmain, if_pos ⟨h1, h2⟩]
  · intro hor
    rw [hclean]
    unfold process_question_data
    rw [hmain, if_neg ?_]
    rintro ⟨h1, h2⟩
    rcases hor with h | h
    · exact h h1
    · rw [h] at h2
      exact lt_irrefl 0 h2

/-- A two-column table: one Q3 column with one `"YES"` row out of two,
the other Q3 column absent. -/
def sampleFlagTable : FlagTable :=
  { cols := ["Knowledge development and dissemination. ",
             "Advocacy and partnerships. "],
    rows := [[("Knowledge development and dissemination. ", "YES")],
             [("Knowledge development and dissemination. ", "NO")]] }

/-- Witness for C5: the sample table yields the trimmed, period-stripped
label with count 1. -/
theorem process_question_data_spec_witness :
    lookupD (process_question_data sampleFlagTable q3_columns)
      (cleanColSpec "Knowledge development and dissemination. ") = some 1 := by
  have h := (process_question_data_spec sampleFlagTable q3_columns
    "Knowledge development and dissemination. " (Or.inl rfl) (by decide)).2.1
    (by decide) (by decide)
  have hy : yesCount sampleFlagTable "Knowledge development and dissemination. " = 1 := by
    decide
  rw [hy] at h
  exact h

/-! ## General aggregator (claim C4)

`GeneralDataProcessor.load_data` from `st_general_dashboard.py` lines
207-256 (the row loop after the column check), together with the outer
`try/except` that turns any exception into an empty `questions_data`.
A CSV cell is `Cell.nan` (missing), an integer, or a string; Python's
`int(...)` on a non-integer string raises `ValueError`, which the loop
does NOT catch — only the outer handler does, discarding everything. -/

/-- Python exception kinds observable in this code. -/
inductive PyError
  | unicodeDecodeError
  | fileNotFoundError
  | valueError
  | otherError (msg : String)
deriving DecidableEq, Repr

/-- A raw CSV cell. -/
inductive Cell
  | nan
  | intv (n : Int)
  | strv (s : String)
deriving DecidableEq, Repr

/-- `pd.notna(x)`. -/
def pyNotna : Cell → Bool
  | .nan => false
  | _ => true

/-- `str(x)` for a cell. -/
def pyStr : Cell → String
  | .nan => "nan"
  | .intv n => toString n
  | .strv s => s

/-- Digits of an integer literal to its value. -/
def digitsToNat (ds : List Char) : Nat :=
  ds.foldl (fun a c => a * 10 + (c.toNat - 48)) 0

/-- Python `int(s)` on a string: strip whitespace, accept an optional
sign followed by digits, otherwise fail (`ValueError`). -/
def pyParseInt (s : String) : Option Int :=
  match (strStrip s).data with
  | [] => none
  | '-' :: ds =>
    if ds ≠ [] ∧ ds.all Char.isDigit then some (-(digitsToNat ds : Int)) else none
  | ds => if ds.all Char.isDigit then some ((digitsToNat ds : Int)) else none

/-- Python `int(x)` on a cell value. -/
def pyIntOfCell : Cell → Except PyError Int
  | .intv n => .ok n
  | .strv s =>
    match pyParseInt s with
    | some n => .ok n
    | none => .error .valueError
  | .nan => .error .valueError

/-- `int(row['count']) if pd.notna(row['count']) else 0`. -/
def coerceCount (c : Cell) : Except PyError Int :=
  if pyNotna c then pyIntOfCell c else .ok 0

/-- A row of the general CSV after the column check. -/
structure SRow where
  question : Cell
  option : Cell
  count : Cell
deriving DecidableEq, Repr

abbrev SurveyTable := List (String × List (String × Int))

def rowQ (r : SRow) : String := strStrip (pyStr r.question)

def rowO (r : SRow) : String := strStrip (pyStr r.option)

/-- `questions_data.setdefault(question, {})[option] = count` — the two
assignment lines of the loop. -/
def tableSet (t : SurveyTable) (q o : String) (cnt : Int) : SurveyTable :=
  dictSet t q (dictSet (dictGet t q []) o cnt)

/-- The row loop: a raised `ValueError` aborts it. -/
def loadRows : List SRow → SurveyTable → Except PyError SurveyTable
  | [], t => .ok t
  | r :: rows, t =>
    match coerceCount r.count with
    | .error e => .error e
    | .ok cnt => loadRows rows (tableSet t (rowQ r) (rowO r) cnt)

/-- The coerced integer for a well-formed count cell. -/
def coerced : Cell → Int
  | .nan => 0
  | .intv n => n
  | .strv _ => 0

/-- The same loop when no exception occurs. -/
def pureFold (rows : List SRow) (t : SurveyTable) : SurveyTable :=
  rows.foldl (fun t r => tableSet t (rowQ r) (rowO r) (coerced r.count)) t

/-- A count cell the loop survives: missing or integral. -/
def isGoodCount : Cell → Bool
  | .nan => true
  | .intv _ => true
  | .strv _ => false

/-- `load_data`: on any exception, or when no data was read, the table
is empty; otherwise the Other-merge runs over it. -/
def load_data (rows : List SRow) : SurveyTable :=
  match loadRows rows [] with
  | .error _ => []
  | .ok t => if t.isEmpty then [] else mergeAll t

/-- Nested lookup in a survey table (the absent question reads as the
empty dict, where every option lookup fails). -/
def lookupT (t : SurveyTable) (q o : String) : Option Int :=
  lookupD (dictGet t q []) o

theorem dictGet_dictSet_self {β : Type} (d : List (String × β)) (k : String)
    (v default : β) : dictGet (dictSet d k v) k default = v := by
  unfold dictGet
  rw [lookupD_dictSet_self]
  rfl

theorem dictGet_dictSet_ne {β : Type} (d : List (String × β)) (k j : String)
    (v default : β) (h : j ≠ k) :
    dictGet (dictSet d k v) j default = dictGet d j default := by
  unfold dictGet
  rw [lookupD_dictSet_ne _ _ _ _ h]

theorem lookupT_tableSet (t : SurveyTable) (q o : String) (cnt : Int) (q2 o2 : String) :
    lookupT (tableSet t q o cnt) q2 o2 =
      if q = q2 ∧ o = o2 then some cnt else lookupT t q2 o2 := by
  unfold tableSet lookupT
  by_cases hq : q = q2
  · subst hq
    rw [dictGet_dictSet_self]
    by_cases ho : o = o2
    · subst ho
      rw [lookupD_dictSet_self, if_pos ⟨rfl, rfl⟩]
    · rw [lookupD_dictSet_ne _ _ _ _ (fun hc => ho hc.symm),
        if_neg (fun hand => ho hand.2)]
  · rw [dictGet_dictSet_ne _ _ _ _ _ (fun hc => hq hc.symm),
      if_neg (fun hand => hq hand.1)]

theorem loadRows_cons_ok (r : SRow) (rows : List SRow) (t : SurveyTable) (cnt : Int)
    (h : coerceCount r.count = .ok cnt) :
    loadRows (r :: rows) t = loadRows rows (tableSet t (rowQ r) (rowO r) cnt) := by
  simp only [loadRows]
  rw [h]

theorem loadRows_cons_err (r : SRow) (rows : List SRow) (t : SurveyTable) (e : PyError)
    (h : coerceCount r.count = .error e) :
    loadRows (r :: rows) t = .error e := by
  simp only [loadRows]
  rw [h]

theorem pureFold_cons (r : SRow) (rows : List SRow) (t : SurveyTable) :
    pureFold (r :: rows) t =
      pureFold rows (tableSet t (rowQ r) (rowO r) (coerced r.count)) := rfl

theorem coerceCount_good (c : Cell) (h : isGoodCount c = true) :
    coerceCount c = .ok (coerced c) := by
  cases c with
  | nan => rfl
  | intv n => rfl
  | strv s => cases h

theorem loadRows_ok :
    ∀ (rows : List SRow) (t : SurveyTable),
      (∀ r ∈ rows, isGoodCount r.count = true) →
      loadRows rows t = .ok (pureFold rows t) := by
  intro rows
  induction rows with
  | nil => intro t _; rfl
  | cons r rows ih =>
    intro t hgood
    rw [loadRows_cons_ok r rows t (coerced r.count)
      (coerceCount_good r.count (hgood r (List.mem_cons_self _ _))), pureFold_cons]
    exact ih _ (fun x hx => hgood x (List.mem_cons_of_mem _ hx))

theorem pureFold_frame :
    ∀ (rows : List SRow) (t : SurveyTable) (q o : String),
      (∀ r ∈ rows, (rowQ r, rowO r) ≠ (q, o)) →
      lookupT (pureFold rows t) q o = lookupT t q o := by
  intro rows
  induction rows with
  | nil => intro t q o _; rfl
  | cons r rows ih =>
    intro t q o hne
    rw [pureFold_cons,
      ih (tableSet t (rowQ r) (rowO r) (coerced r.count)) q o
        (fun x hx => hne x (List.mem_cons_of_mem _ hx)),
      lookupT_tableSet,
      if_neg (fun hand => hne r (List.mem_cons_self _ _) (Prod.ext hand.1 hand.2))]

theorem pureFold_mem :
    ∀ (rows : List SRow) (t : SurveyTable) (r0 : SRow),
      r0 ∈ rows →
      (rows.map (fun r => (rowQ r, rowO r))).Nodup →
      lookupT (pureFold rows t) (rowQ r0) (rowO r0) = some (coerced r0.count) := by
  intro rows
  induction rows with
  | nil => intro t r0 h; cases h
  | cons r rows ih =>
    intro t r0 hmem hnodup
    rw [List.map_cons, List.nodup_cons] at hnodup
    rw [pureFold_cons]
    rcases List.mem_cons.mp hmem with rfl | htail
    · have hfr : ∀ x ∈ rows, (rowQ x, rowO x) ≠ (rowQ r0, rowO r0) := by
        intro x hx hc
        exact hnodup.1 (hc ▸ List.mem_map_of_mem (fun r => (rowQ r, rowO r)) hx)
      rw [pureFold_frame rows
        (tableSet t (rowQ r0) (rowO r0) (coerced r0.count)) (rowQ r0) (rowO r0) hfr,
        lookupT_tableSet, if_pos ⟨rfl, rfl⟩]
    · exact ih (tableSet t (rowQ r) (rowO r) (coerced r.count)) r0 htail hnodup.2

theorem loadRows_fails :
    ∀ (rows : List SRow) (t : SurveyTable),
      (∃ r ∈ rows, ∃ s, r.count = Cell.strv s ∧ pyParseInt s = none) →
      ∃ e, loadRows rows t = .error e := by
  intro rows
  induction rows with
  | nil =>
    intro t h
    obtain ⟨r, hr, _⟩ := h
    cases hr
  | cons r rows ih =>
    intro t h
    cases hc : coerceCount r.count with
    | error e => exact ⟨e, loadRows_cons_err r rows t e hc⟩
    | ok cnt =>
      obtain ⟨x, hx, s, hs, hps⟩ := h
      rcases List.mem_cons.mp hx with rfl | htail
      · exfalso
        rw [hs] at hc
        have hc2 : (match pyParseInt s with
            | some n => Except.ok (ε := PyError) n
            | none => Except.error PyError.valueError) = Except.ok cnt := hc
        rw [hps] at hc2
        cases hc2
      · obtain ⟨e, he⟩ := ih (tableSet t (rowQ r) (rowO r) cnt) ⟨x, htail, s, hs, hps⟩
        exact ⟨e, by rw [loadRows_cons_ok r rows t cnt hc]; exact he⟩

/-- C4 (amended): after the column check, a row whose `count` is missing
(`NaN`) contributes the coerced 0 for its trimmed (question, option)
pair and integer counts contribute their value; but a non-numeric count
string raises `ValueError`, which only the outer handler catches — the
whole load yields an empty table, so the malformed value IS fatal and no
row of that table appears. -/
theorem load_data_amended (rows : List SRow) :
    ((∀ r ∈ rows, isGoodCount r.count = true) →
      loadRows rows [] = .ok (pureFold rows []) ∧
      ((rows.map (fun r => (rowQ r, rowO r))).Nodup →
        ∀ r ∈ rows,
          lookupT (pureFold rows []) (rowQ r) (rowO r) = some (coerced r.count))) ∧
    ((∃ r ∈ rows, ∃ s, r.count = Cell.strv s ∧ pyParseInt s = none) →
      load_data rows = []) := by
  constructor
  · intro hgood
    refine ⟨loadRows_ok rows [] hgood, ?_⟩
    intro hnodup r hr
    exact pureFold_mem rows [] r hr hnodup
  · intro hbad
    obtain ⟨e, he⟩ := loadRows_fails rows [] hbad
    unfold load_data
    rw [he]

/-- Two well-formed rows, the second with a missing count. -/
def sampleRows : List SRow :=
  [⟨Cell.strv "Q1: A", Cell.strv "Yes", Cell.intv 30⟩,
   ⟨Cell.strv "Q1: A", Cell.strv "No", Cell.nan⟩]

/-- A table whose first row has the non-numeric count `"abc"` and whose
second row is well-formed. -/
def badRows : List SRow :=
  [⟨Cell.strv "Q1: A", Cell.strv "Yes", Cell.strv "abc"⟩,
   ⟨Cell.strv "Q1: A", Cell.strv "No", Cell.intv 5⟩]

/-- Witness for C4 (amended): the missing count of the second sample row
appears as 0 under its (question, option) pair. -/
theorem load_data_amended_witness :
    lookupT (pureFold sampleRows []) "Q1: A" "No" = some 0 := by
  have h := ((load_data_amended sampleRows).1 (by decide)).2 (by decide)
    ⟨Cell.strv "Q1: A", Cell.strv "No", Cell.nan⟩ (by decide)
  rw [show rowQ ⟨Cell.strv "Q1: A", Cell.strv "No", Cell.nan⟩ = "Q1: A" from by decide,
    show rowO ⟨Cell.strv "Q1: A", Cell.strv "No", Cell.nan⟩ = "No" from by decide] at h
  exact h

/-- C4 counterexample: with the non-numeric count `"abc"` in the first
row, the entire load fails and returns an empty table — the well-formed
second row `(Q1: A, No, 5)` does NOT appear, refuting "such malformed
values are never fatal: all other rows of the same table still appear in
the aggregated output". -/
theorem nonnumeric_count_fatal_counterexample :
    load_data badRows = [] ∧ lookupT (load_data badRows) "Q1: A" "No" = none := by
  refine ⟨by decide, by decide⟩

/-! ## CSV loader (claim C3)

`safe_read_csv` from both pages (identical logic): the encoding loop
catches ONLY `UnicodeDecodeError`; any other exception raised by
`pd.read_csv` — in particular `FileNotFoundError` for a nonexistent
path — propagates out of the function.  `pd.read_csv` is abstracted as
an oracle from the optional encoding argument to a parse result. -/

/-- Outcome of a call to `safe_read_csv`: an uncaught exception, or a
returned dataframe together with whether the error message was shown. -/
inductive ReadResult
  | raised (e : PyError)
  | returned (df : List (List String)) (errorShown : Bool)
deriving DecidableEq, Repr

def encodingsList : List String := ["utf-8", "latin-1", "cp1252", "iso-8859-1"]

/-- The encoding loop followed by the unqualified fallback parse. -/
def tryEncodings (r : Option String → Except PyError (List (List String))) :
    List String → ReadResult
  | [] =>
    match r none with
    | .ok df => .returned df false
    | .error _ => .returned [] true
  | enc :: rest =>
    match r (some enc) with
    | .ok df => .returned df false
    | .error .unicodeDecodeError => tryEncodings r rest
    | .error e => .raised e

/-- `safe_read_csv`. -/
def safe_read_csv (r : Option String → Except PyError (List (List String))) :
    ReadResult :=
  tryEncodings r encodingsList

/-- C3 (amended): the loader tries the listed encodings in order and
returns the first successful parse; a `UnicodeDecodeError` moves on to
the next encoding, but any other exception from an encoding attempt
(e.g. `FileNotFoundError` for a nonexistent file) propagates uncaught;
only when every encoding attempt fails with `UnicodeDecodeError` does
the unqualified parse run, whose success is returned and whose failure
of any kind yields the error message and an empty table. -/
theorem safe_read_csv_amended
    (r : Option String → Except PyError (List (List String))) :
    (∀ df, r (some "utf-8") = .ok df →
      safe_read_csv r = .returned df false) ∧
    (∀ e, e ≠ PyError.unicodeDecodeError → r (some "utf-8") = .error e →
      safe_read_csv r = .raised e) ∧
    ((∀ enc ∈ encodingsList, r (some enc) = .error .unicodeDecodeError) →
      (∀ df, r none = .ok df → safe_read_csv r = .returned df false) ∧
      (∀ e, r none = .error e → safe_read_csv r = .returned [] true)) := by
  refine ⟨?_, ?_, ?_⟩
  · intro df h
    show tryEncodings r ("utf-8" :: ["latin-1", "cp1252", "iso-8859-1"]) = _
    simp only [tryEncodings]
    rw [h]
  · intro e he h
    show tryEncodings r ("utf-8" :: ["latin-1", "cp1252", "iso-8859-1"]) = _
    simp only [tryEncodings]
    rw [h]
    cases e with
    | unicodeDecodeError => exact absurd rfl he
    | fileNotFoundError => rfl
    | valueError => rfl
    | otherError msg => rfl
  · intro hall
    have h1 := hall "utf-8" (by decide)
    have h2 := hall "latin-1" (by decide)
    have h3 := hall "cp1252" (by decide)
    have h4 := hall "iso-8859-1" (by decide)
    have hloop : safe_read_csv r = tryEncodings r [] := by
      show tryEncodings r ("utf-8" :: ["latin-1", "cp1252", "iso-8859-1"]) = _
      simp only [tryEncodings]
      rw [h1]
      simp only [tryEncodings]
      rw [h2]
      simp only [tryEncodings]
      rw [h3]
      simp only [tryEncodings]
      rw [h4]
    constructor
    · intro df h
      rw [hloop]
      simp only [tryEncodings]
      rw [h]
    · intro e h
      rw [hloop]
      simp only [tryEncodings]
      rw [h]

/-- A reader whose every attempt raises `FileNotFoundError` — the
behaviour of `pd.read_csv` on a nonexistent path. -/
def fnfReader : Option String → Except PyError (List (List String)) :=
  fun _ => .error PyError.fileNotFoundError

/-- Witness for C3 (amended) at a reader that succeeds immediately. -/
theorem safe_read_csv_amended_witness :
    safe_read_csv (fun _ => .ok [["a", "b"]]) =
      ReadResult.returned [["a", "b"]] false :=
  (safe_read_csv_amended (fun _ => .ok [["a", "b"]])).1 [["a", "b"]] rfl

/-- C3 counterexample: on a nonexistent file every `pd.read_csv` call
raises `FileNotFoundError`; the first encoding attempt is not caught by
`except UnicodeDecodeError`, so `safe_read_csv` raises past its boundary
instead of reporting and returning an empty table — refuting "a
nonexistent or unreadable file also yields the error message and an
empty table rather than a propagated exception". -/
theorem safe_read_csv_raises_counterexample :
    safe_read_csv fnfReader = ReadResult.raised PyError.fileNotFoundError ∧
    ∀ (df : List (List String)) (b : Bool),
      safe_read_csv fnfReader ≠ ReadResult.returned df b := by
  constructor
  · rfl
  · intro df b h
    have h2 : ReadResult.raised PyError.fileNotFoundError =
        ReadResult.returned df b := h
    cases h2

/-- Witness for C9 (amended): the spec's example short Q2 title stays on
one line. -/
theorem title_processing_amended_witness :
    process_title_for_display "Q2: Do you agree?" = "Q2: Do you agree?" :=
  ((title_processing_amended "Q2: Do you agree?").2 (Or.inl (by decide))).1 (by decide)
